import Mathlib

/-! # Blog backend (`app.cjs`): authentication, login and blog-post handlers

A shallow embedding of the Express application in `src/app.cjs`.

* The request/response cycle is modelled by explicit state passing: a middleware maps the
  request to the (possibly mutated) request and the list of effects it performed
  (`res.sendStatus`, `next()`); a handler maps the store to the new store and the list of
  responses it sent.
* The SQL tables are lists of rows in rowid order, the order in which SQLite scans them.
* The external collaborators are parameters: `verify` stands for
  `jwt.verify(·, process.env.SECRET_KEY, cb)` (`none` is the `err` branch of the callback),
  `compare` for `bcrypt.compare`, `dbErr` for the `err` argument the storage engine hands to a
  statement callback, `now` for `+(new Date())`, and `slugFn` for the module
  `./src/utils/slugify.cjs`, which the handlers only call.
* Publish dates are integers (epoch milliseconds) or SQL `NULL`; text columns that a request
  may leave out are `Option String` (`none` is `NULL`).
* The image directory is the list of its filenames; `written` says which of the resized
  copies sharp was asked for have reached it. In the newsletter handler `dbErr` is the
  outcome of the insert and `threw` an exception raised inside the `try` block.
-/

namespace Blog

/-! ## JavaScript values and objects -/

/-- The JavaScript values that occur in database row objects and token payloads. -/
inductive JsVal where
  | undefined
  | num (n : Int)
  | str (s : String)
  deriving DecidableEq, Repr

/-- A plain JavaScript object: its own properties in insertion order. -/
abbrev JsObject := List (String × JsVal)

/-- Property read `obj.key`: a key the object does not have reads as `undefined`. -/
def JsObject.get (o : JsObject) (key : String) : JsVal :=
  (o.lookup key).getD JsVal.undefined

/-- The operator `a || b` on an optional integer: `undefined` and `0` are falsy. -/
def jsOr (a : Option Int) (b : Int) : Int :=
  match a with
  | none => b
  | some v => if v = 0 then b else v

/-- Splitting of a character list on a separator, keeping empty fields. -/
def splitChars (sep : Char) : List Char → List (List Char)
  | [] => [[]]
  | c :: cs =>
    match splitChars sep cs with
    | [] => [[]]
    | w :: ws => if c = sep then [] :: w :: ws else (c :: w) :: ws

/-- The method `s.split(sep)` for a one-character separator. -/
def jsSplit (s : String) (sep : Char) : List String :=
  (splitChars sep s.toList).map String.mk

/-! ## Requests, responses and middleware effects -/

/-- The part of an Express request the middlewares read and write:
`req.headers['authorization']` and `req.user`. -/
structure Req where
  authorization : Option String
  user : Option JsObject
  deriving DecidableEq, Repr

/-- What a middleware does to the response and the handler chain. -/
inductive Effect where
  | sendStatus (code : Nat)
  | next
  deriving DecidableEq, Repr

/-- The status codes a list of effects sends, in order. -/
def statusesSent : List Effect → List Nat
  | [] => []
  | Effect.sendStatus c :: es => c :: statusesSent es
  | Effect.next :: es => statusesSent es

/-- How many times a list of effects calls `next()`. -/
def nextCalls : List Effect → Nat
  | [] => 0
  | Effect.sendStatus _ :: es => nextCalls es
  | Effect.next :: es => nextCalls es + 1

/-- The expression `authHeader && authHeader.split(' ')[1]`: an absent header gives
`undefined`, the empty header (falsy) gives itself, any other header gives the second
space-separated field, `undefined` when there is none. -/
def extractToken : Option String → Option String
  | none => none
  | some authHeader => if authHeader = "" then some "" else (jsSplit authHeader ' ')[1]?

/-- Required-mode middleware, `authenticateToken` (app.cjs 61-72). -/
def authenticateToken (verify : String → Option JsObject) (req : Req) : Req × List Effect :=
  match extractToken req.authorization with
  | none => (req, [Effect.sendStatus 401])
  | some token =>
    match verify token with
    | none => (req, [Effect.sendStatus 403])
    | some user => ({ req with user := some user }, [Effect.next])

/-- Optional-mode middleware, `authenticateTokenIfPresentButNextAnyway` (app.cjs 74-85). -/
def authenticateTokenIfPresentButNextAnyway (verify : String → Option JsObject) (req : Req) :
    Req × List Effect :=
  match extractToken req.authorization with
  | none => (req, [Effect.next])
  | some token =>
    match verify token with
    | none => (req, [Effect.next])
    | some user => ({ req with user := some user }, [Effect.next])

/-! ## Tables -/

/-- A row of `users (id INTEGER PRIMARY KEY, username TEXT, passwordHash TEXT)`. -/
structure UserRow where
  id : Nat
  username : String
  passwordHash : String
  deriving DecidableEq, Repr

/-- The object `SELECT * FROM users` yields for a row: one property per column. -/
def UserRow.toObject (u : UserRow) : JsObject :=
  [("id", JsVal.num u.id), ("username", JsVal.str u.username),
   ("passwordHash", JsVal.str u.passwordHash)]

/-- A row of `blogPosts`, columns in the order of the `CREATE TABLE` statement. -/
structure BlogPost where
  id : Nat
  slug : String
  content : Option String
  title : String
  date : Option Int
  headerImage : Option String
  thumbnailImage : Option String
  tags : Option String
  deleted : Int
  byline : Option String
  deriving DecidableEq, Repr

/-- The body of a create or update request (`req.body`). -/
structure PostBody where
  title : String
  content : Option String
  headerImage : Option String
  thumbnailImage : Option String
  date : Option Int
  tags : Option String
  deleted : Option Int
  byline : Option String
  deriving DecidableEq, Repr

/-- The arguments of `jwt.sign(payload, secret, { expiresIn })`; the signature is abstract. -/
structure SignedToken where
  payload : JsObject
  expiresIn : String
  deriving DecidableEq, Repr

/-- Response bodies. -/
inductive Body where
  | empty
  | text (s : String)
  | success
  | token (t : SignedToken)
  | post (p : BlogPost)
  | posts (ps : List BlogPost)
  | filenames (names : List String)
  deriving DecidableEq, Repr

/-- A response as sent: status code and body. -/
structure Response where
  status : Nat
  body : Body
  deriving DecidableEq, Repr

/-- The body `res.sendStatus(code)` sends with the code. -/
def statusText (code : Nat) : String :=
  if code = 401 then "Unauthorized"
  else if code = 403 then "Forbidden"
  else if code = 500 then "Internal Server Error"
  else toString code

/-- Execution of a middleware's effects in front of a handler: `sendStatus` sends a
response, `next()` runs the handler on the current store. -/
def runEffects {σ : Type} (handler : σ → σ × List Response) :
    List Effect → σ → σ × List Response
  | [], s => (s, [])
  | Effect.sendStatus c :: es, s =>
    let r := runEffects handler es s
    (r.1, ⟨c, Body.text (statusText c)⟩ :: r.2)
  | Effect.next :: es, s =>
    let r1 := handler s
    let r2 := runEffects handler es r1.1
    (r2.1, r1.2 ++ r2.2)

/-- A route `app.METHOD(path, mw, handler)`: the handler sees the request as the middleware
left it. -/
def route {σ : Type} (mw : Req → Req × List Effect)
    (handler : Req → σ → σ × List Response) (req : Req) (s : σ) : σ × List Response :=
  runEffects (handler (mw req).1) (mw req).2 s

/-! ## Login (app.cjs 39-59) -/

/-- The handler of `POST /api/blog/login`, for a lookup the storage engine answers:
`db.get` yields the first row the scan finds, `undefined` when there is none. The token in
the response is represented by the arguments `jwt.sign` is called with. -/
def login (compare : String → String → Bool) (users : List UserRow)
    (username password : String) : Response :=
  match (users.find? fun u => u.username == username).map UserRow.toObject with
  | none => ⟨401, Body.text "No user found"⟩
  | some user =>
    let isValid :=
      match user.get "passwordHash" with
      | JsVal.str h => compare password h
      | _ => false
    if !isValid then ⟨401, Body.text "Invalid credentials"⟩
    else ⟨200, Body.token ⟨[("userID", user.get "userID")], "6h"⟩⟩

/-! ## Blog posts -/

/-- The rowid SQLite gives to an inserted row: one more than the largest in the table. -/
def nextRowid (store : List BlogPost) : Nat :=
  (store.map BlogPost.id).foldl max 0 + 1

/-- The handler of `POST /api/blog/posts` (app.cjs 92-116). -/
def createPost (slugFn : String → String) (now : Int) (dbErr : Bool) (body : PostBody)
    (store : List BlogPost) : List BlogPost × List Response :=
  let slug := slugFn body.title
  if dbErr then (store, [⟨500, Body.text "error writing to db"⟩])
  else
    (store ++ [{ id := nextRowid store
                 slug := slug
                 content := body.content
                 title := body.title
                 headerImage := body.headerImage
                 thumbnailImage := body.thumbnailImage
                 date := some (jsOr body.date now)
                 deleted := 0
                 tags := body.tags
                 byline := body.byline }],
     [⟨201, Body.success⟩])

/-- The comparison `date <= now` of SQL: unknown (not true) on `NULL`. -/
def sqlDateLe (date : Option Int) (now : Int) : Bool :=
  match date with
  | none => false
  | some d => decide (d ≤ now)

/-- The `WHERE` clause the template string of the listing assembles; `none` when the text is
not a valid statement (`... blogPosts AND deleted = 0`). -/
def listWhere (seeFuture seeDeleted : Bool) (now : Int) : Option (BlogPost → Bool) :=
  match seeFuture, seeDeleted with
  | true, true => some fun _ => true
  | false, true => some fun p => sqlDateLe p.date now
  | false, false => some fun p => sqlDateLe p.date now && p.deleted == 0
  | true, false => none

/-- The order of `ORDER BY date` on the column values: `NULL` before every number, numbers
ascending. -/
def dateLe : Option Int → Option Int → Bool
  | none, _ => true
  | some _, none => false
  | some x, some y => decide (x ≤ y)

/-- The order of `ORDER BY date` on rows. -/
def dateOrder (a b : BlogPost) : Prop := dateLe a.date b.date = true

instance dateOrderDecidable : DecidableRel dateOrder := fun a b =>
  inferInstanceAs (Decidable (dateLe a.date b.date = true))

/-- The handler of `GET /api/blog/posts` (app.cjs 119-134). -/
def listPosts (now : Int) (dbErr : Bool) (req : Req) (store : List BlogPost) :
    List BlogPost × List Response :=
  let seeDeleted := req.user.isSome
  let seeFuture := req.user.isSome
  match listWhere seeFuture seeDeleted now with
  | none => (store, [⟨500, Body.text "error reading from db"⟩])
  | some cond =>
    if dbErr then (store, [⟨500, Body.text "error reading from db"⟩])
    else (store, [⟨200, Body.posts ((store.filter cond).insertionSort dateOrder)⟩])

/-- The handler of `GET /api/blog/posts/:slug` (app.cjs 137-144); `res.json(undefined)`
sends an empty body. -/
def getPostBySlug (dbErr : Bool) (slug : String) (store : List BlogPost) :
    List BlogPost × List Response :=
  if dbErr then (store, [⟨500, Body.text "error reading from db"⟩])
  else
    match store.find? fun p => p.slug == slug && p.deleted == 0 with
    | none => (store, [⟨200, Body.empty⟩])
    | some row => (store, [⟨200, Body.post row⟩])

/-- The handler of `DELETE /api/blog/posts/:slug` (app.cjs 147-154). -/
def deletePost (dbErr : Bool) (slug : String) (store : List BlogPost) :
    List BlogPost × List Response :=
  if dbErr then (store, [⟨500, Body.text "error deleting from db"⟩])
  else
    (store.map fun p => if p.slug = slug then { p with deleted := 1 } else p,
     [⟨201, Body.text "success"⟩])

/-- The handler of `PUT /api/blog/posts/:slug` (app.cjs 157-180). -/
def updatePost (slugFn : String → String) (dbErr : Bool) (slug : String) (body : PostBody)
    (store : List BlogPost) : List BlogPost × List Response :=
  let newSlug := slugFn body.title
  if dbErr then (store, [⟨500, Body.text "error writing to db"⟩])
  else
    (store.map fun p =>
        if p.slug = slug then
          { p with content := body.content
                   title := body.title
                   headerImage := body.headerImage
                   thumbnailImage := body.thumbnailImage
                   slug := newSlug
                   date := body.date
                   tags := body.tags
                   deleted := jsOr body.deleted 0
                   byline := body.byline }
        else p,
     [⟨201, Body.text "success"⟩])

/-! ## Routes -/

/-- The request object Express hands to the first middleware: the header as received and no
`user` property. -/
def freshReq (authorization : Option String) : Req :=
  { authorization := authorization, user := none }

/-- Route `app.post('/api/blog/posts', authenticateToken, ...)`. -/
def routeCreate (verify : String → Option JsObject) (slugFn : String → String) (now : Int)
    (dbErr : Bool) (authorization : Option String) (body : PostBody) (store : List BlogPost) :
    List BlogPost × List Response :=
  route (authenticateToken verify) (fun _ => createPost slugFn now dbErr body)
    (freshReq authorization) store

/-- Route `app.get('/api/blog/posts', authenticateTokenIfPresentButNextAnyway, ...)`. -/
def routeList (verify : String → Option JsObject) (now : Int) (dbErr : Bool)
    (authorization : Option String) (store : List BlogPost) : List BlogPost × List Response :=
  route (authenticateTokenIfPresentButNextAnyway verify) (listPosts now dbErr)
    (freshReq authorization) store

/-- Route `app.get('/api/blog/posts/:slug', ...)`: no middleware in front of the handler, the
Authorization header is never read. -/
def routeGetBySlug (dbErr : Bool) (_authorization : Option String) (slug : String)
    (store : List BlogPost) : List BlogPost × List Response :=
  getPostBySlug dbErr slug store

/-- Route `app.delete('/api/blog/posts/:slug', authenticateToken, ...)`. -/
def routeDelete (verify : String → Option JsObject) (dbErr : Bool)
    (authorization : Option String) (slug : String) (store : List BlogPost) :
    List BlogPost × List Response :=
  route (authenticateToken verify) (fun _ => deletePost dbErr slug) (freshReq authorization) store

/-- Route `app.put('/api/blog/posts/:slug', authenticateToken, ...)`. -/
def routeUpdate (verify : String → Option JsObject) (slugFn : String → String) (dbErr : Bool)
    (authorization : Option String) (slug : String) (body : PostBody) (store : List BlogPost) :
    List BlogPost × List Response :=
  route (authenticateToken verify) (fun _ => updatePost slugFn dbErr slug body)
    (freshReq authorization) store

/-- A caller is authenticated when the header carries a token that verifies. -/
def Authenticated (verify : String → Option JsObject) (authorization : Option String) : Prop :=
  ∃ token user, extractToken authorization = some token ∧ verify token = some user

/-! ## The slug generator -/

/-- The maximal runs of alphanumeric characters of a text, with the empty runs between
adjacent separators and at the ends. -/
def alnumFields : List Char → List (List Char)
  | [] => [[]]
  | c :: cs =>
    match alnumFields cs with
    | [] => [[]]
    | w :: ws => if c.isAlphanum then (c :: w) :: ws else [] :: w :: ws

/-- Modelled from the spec: the module `./src/utils/slugify.cjs`, which the application
requires and which is not among the sources. The spec (4.7): "lowercases, strips/replaces
non-alphanumeric runs with a single separator, trims separators from the ends". -/
def slugify (title : String) : String :=
  String.mk (List.intercalate ['-']
    ((alnumFields (title.toList.map Char.toLower)).filter fun w => !w.isEmpty))

/-! ## Fixtures of the test suite (blog.test.js) -/

/-- The `length` the tests read off a response body: defined for a list of posts. -/
def Body.length? : Body → Option Nat
  | Body.posts ps => some ps.length
  | _ => none


/-- A stand-in for `bcrypt.compare` on concrete inputs: the hash of a password is the
password after the prefix `bcrypt:`. -/
def testCompare (password hash : String) : Bool :=
  hash == "bcrypt:" ++ password

/-- A verifier that accepts the one token the test login returned. -/
def testVerify (token : String) : Option JsObject :=
  if token = "jwt" then some [("userID", JsVal.undefined)] else none

/-- The body of the first test post; `timeAtPost` is taken to be 1700000000000. -/
def testPost : PostBody :=
  { title := "test title", content := some "test content",
    headerImage := some "test header image", thumbnailImage := some "test thumbnail image",
    date := some 1700000000000, tags := none, deleted := none, byline := none }

/-- The body of the test post dated one day ahead. -/
def futurePost : PostBody :=
  { title := "future date", content := some "future content", headerImage := none,
    thumbnailImage := none, date := some 1700086400000, tags := none, deleted := none,
    byline := none }

/-- The store after the two creations of the test suite (`test title`, then `future date`),
both sent with the token of the test login. -/
def testStoreWithFuture : List BlogPost :=
  (routeCreate testVerify slugify 1700000000500 false (some "Bearer jwt") futurePost
    (routeCreate testVerify slugify 1700000000100 false (some "Bearer jwt") testPost []).1).1

/-- The body of the edit of the test suite (`can edit blogpost`). -/
def editedPost : PostBody :=
  { title := "new title", content := some "new content",
    headerImage := some "new header image", thumbnailImage := some "new thumbnail image",
    date := some 1700000000000, tags := none, deleted := none, byline := none }

/-- The store of the test suite after its first creation (`test title`). -/
def testStore : List BlogPost :=
  (routeCreate testVerify slugify 1700000000100 false (some "Bearer jwt") testPost []).1

/-- The title the tests read off a response body: defined for a single post. -/
def Body.title? : Body → Option String
  | Body.post p => some p.title
  | _ => none

/-! ## The HTTP surface on posts -/

/-- A request to one of the post routes, with the outcome of its storage statement. -/
inductive Call where
  | create (now : Int) (dbErr : Bool) (authorization : Option String) (body : PostBody)
  | update (dbErr : Bool) (authorization : Option String) (slug : String) (body : PostBody)
  | delete (dbErr : Bool) (authorization : Option String) (slug : String)
  | list (now : Int) (dbErr : Bool) (authorization : Option String)
  | get (dbErr : Bool) (authorization : Option String) (slug : String)

/-- The application serving one request on a store. -/
def serve (verify : String → Option JsObject) (slugFn : String → String)
    (store : List BlogPost) : Call → List BlogPost × List Response
  | Call.create now dbErr authorization body =>
    routeCreate verify slugFn now dbErr authorization body store
  | Call.update dbErr authorization slug body =>
    routeUpdate verify slugFn dbErr authorization slug body store
  | Call.delete dbErr authorization slug => routeDelete verify dbErr authorization slug store
  | Call.list now dbErr authorization => routeList verify now dbErr authorization store
  | Call.get dbErr authorization slug => routeGetBySlug dbErr authorization slug store

/-- The store reached from the empty store by a sequence of requests. -/
def run (verify : String → Option JsObject) (slugFn : String → String) (calls : List Call) :
    List BlogPost :=
  calls.foldl (fun store call => (serve verify slugFn store call).1) []

/-! ## Images (app.cjs 183-215) -/

/-- Whether a character list contains another as a contiguous run. -/
def includesChars (needle : List Char) : List Char → Bool
  | [] => needle.isEmpty
  | c :: cs => needle.isPrefixOf (c :: cs) || includesChars needle cs

/-- The method `s.includes(needle)`. -/
def jsIncludes (s needle : String) : Bool :=
  includesChars needle.toList s.toList

/-- The table `sizes` of the upload handler. -/
def sizes : List (String × Nat) :=
  [("thumbnail", 100), ("medium", 200)]

/-- The middleware `upload.single('file')`: a file of the request is stored in the image
directory under the name multer generates for it (`filename`), and the chain goes on. The
directory is the list of its filenames in the order `readdirSync` reports them. -/
def uploadSingle (file : Option String) (dir : List String) : List String :=
  match file with
  | none => dir
  | some filename => dir ++ [filename]

/-- The handler of `POST /api/blog/images`; `file` is `req.file` and `dir` the directory as
`upload.single('file')` left it. The response is sent before the resized copies are
written; `written size` says whether the write sharp was asked for (`filename-size`) has
reached the directory. -/
def uploadImage (written : String → Bool) (file : Option String) (dir : List String) :
    List String × List Response :=
  match file with
  | none => (dir, [⟨400, Body.text "No file uploaded."⟩])
  | some filename =>
    (dir ++ ((sizes.filter fun size => written size.1).map fun size =>
        filename ++ "-" ++ size.1),
      [⟨201, Body.text "File uploaded successfully"⟩])

/-- Route `app.post('/api/blog/images', authenticateToken, upload.single('file'), ...)`. -/
def routeUploadImage (verify : String → Option JsObject) (written : String → Bool)
    (authorization : Option String) (file : Option String) (dir : List String) :
    List String × List Response :=
  route (authenticateToken verify)
    (fun _ stored => uploadImage written file (uploadSingle file stored))
    (freshReq authorization) dir

/-- The handler of `GET /api/blog/images`: the names of the image directory without those
that include `-thumbnail`. -/
def routeImages (dir : List String) : List String × List Response :=
  (dir, [⟨200, Body.filenames (dir.filter fun filename => !jsIncludes filename "-thumbnail")⟩])

/-! ## Newsletter (app.cjs 217-226) -/

/-- A row of `emails (id INTEGER PRIMARY KEY, email TEXT, dateRegistered DATE)`. -/
structure EmailRow where
  id : Nat
  email : Option String
  dateRegistered : Int
  deriving DecidableEq, Repr

/-- The rowid of an inserted email row: one more than the largest in the table. -/
def nextEmailRowid (emails : List EmailRow) : Nat :=
  (emails.map EmailRow.id).foldl max 0 + 1

/-- The handler of `POST /api/sign-up-for-newsletter`. `db.run` is called without a
callback, so the outcome of the statement (`dbErr`: the storage engine reports an error for
the insert) arrives after the `try` block has ended and reaches no code of the handler;
`threw` stands for an exception raised inside the `try` block itself, which is what the
`catch` branch answers with `res.sendStatus(500)`. -/
def signUpForNewsletter (now : Int) (threw dbErr : Bool) (email : Option String)
    (emails : List EmailRow) : List EmailRow × List Response :=
  if threw then (emails, [⟨500, Body.text (statusText 500)⟩])
  else
    (if dbErr then emails
      else emails ++ [{ id := nextEmailRowid emails, email := email, dateRegistered := now }],
     [⟨201, Body.text "success"⟩])

/-! ## Required-mode and optional-mode authentication -/

theorem splitChars_ne_nil (sep : Char) (l : List Char) : splitChars sep l ≠ [] := by
  cases l with
  | nil => simp [splitChars]
  | cons c cs =>
    unfold splitChars
    cases splitChars sep cs with
    | nil => simp
    | cons w ws => by_cases h : c = sep <;> simp [h]

/-- A text has a second field exactly when it contains the separator. -/
theorem splitChars_second_eq_none (sep : Char) (l : List Char) :
    (splitChars sep l)[1]? = none ↔ sep ∉ l := by
  induction l with
  | nil => simp [splitChars]
  | cons c cs ih =>
    unfold splitChars
    cases hs : splitChars sep cs with
    | nil => exact absurd hs (splitChars_ne_nil sep cs)
    | cons w ws =>
      rw [hs] at ih
      by_cases h : c = sep
      · simp [h]
      · have hne : ¬ sep = c := fun e => h e.symm
        simp only [h, if_false, List.mem_cons, hne, false_or]
        simpa using ih

/-- The extracted token is absent (`token == null`) exactly when there is no Authorization
header or the header is a non-empty text without a space. -/
theorem extractToken_eq_none_iff (authorization : Option String) :
    extractToken authorization = none ↔
      authorization = none ∨ ∃ h, authorization = some h ∧ h ≠ "" ∧ ' ' ∉ h.toList := by
  cases authorization with
  | none => simp [extractToken]
  | some h =>
    by_cases he : h = ""
    · simp [extractToken, he]
    · have hsplit : (jsSplit h ' ')[1]? = none ↔ ' ' ∉ h.toList := by
        rw [jsSplit, List.getElem?_map, Option.map_eq_none']
        exact splitChars_second_eq_none ' ' h.toList
      simp only [extractToken, he, if_false, hsplit]
      simp [he]

/-- The three outcomes of `authenticateToken` in terms of the token the code extracts
(`token == null`, verification fails, verification succeeds), for every verifier and every
request, and that exactly one of them happens. -/
theorem authenticateToken_cases (verify : String → Option JsObject) (req : Req) :
    (extractToken req.authorization = none →
      statusesSent (authenticateToken verify req).2 = [401] ∧
      nextCalls (authenticateToken verify req).2 = 0 ∧
      (authenticateToken verify req).1 = req) ∧
    (extractToken req.authorization = none ↔
      req.authorization = none ∨
        ∃ h, req.authorization = some h ∧ h ≠ "" ∧ ' ' ∉ h.toList) ∧
    (∀ token, extractToken req.authorization = some token → verify token = none →
      statusesSent (authenticateToken verify req).2 = [403] ∧
      nextCalls (authenticateToken verify req).2 = 0 ∧
      (authenticateToken verify req).1 = req) ∧
    (∀ token user, extractToken req.authorization = some token → verify token = some user →
      statusesSent (authenticateToken verify req).2 = [] ∧
      nextCalls (authenticateToken verify req).2 = 1 ∧
      (authenticateToken verify req).1.user = some user) ∧
    ((statusesSent (authenticateToken verify req).2 = [401] ∧
        nextCalls (authenticateToken verify req).2 = 0 ∧
        extractToken req.authorization = none) ∨
      (statusesSent (authenticateToken verify req).2 = [403] ∧
        nextCalls (authenticateToken verify req).2 = 0 ∧
        ∃ token, extractToken req.authorization = some token ∧ verify token = none) ∨
      (statusesSent (authenticateToken verify req).2 = [] ∧
        nextCalls (authenticateToken verify req).2 = 1 ∧
        ∃ token user, extractToken req.authorization = some token ∧
          verify token = some user ∧ (authenticateToken verify req).1.user = some user)) ∧
    ¬ (statusesSent (authenticateToken verify req).2 = [401] ∧
        statusesSent (authenticateToken verify req).2 = [403]) ∧
    ¬ (statusesSent (authenticateToken verify req).2 = [401] ∧
        nextCalls (authenticateToken verify req).2 = 1) ∧
    ¬ (statusesSent (authenticateToken verify req).2 = [403] ∧
        nextCalls (authenticateToken verify req).2 = 1) := by
  refine ⟨?_, extractToken_eq_none_iff req.authorization, ?_⟩
  · unfold authenticateToken
    cases ht : extractToken req.authorization with
    | none => simp [statusesSent, nextCalls]
    | some t => simp
  · unfold authenticateToken
    cases ht : extractToken req.authorization with
    | none => simp [statusesSent, nextCalls]
    | some t =>
      cases hv : verify t with
      | none =>
        simp [hv, statusesSent, nextCalls]
        rintro token user rfl
        simp [hv]
      | some u =>
        simp [hv, statusesSent, nextCalls]
        rintro token user rfl
        simp [hv]

/-- The token of a non-empty header is its second space-separated field. -/
theorem extractToken_nonempty (h : String) (hne : h ≠ "") :
    extractToken (some h) = (jsSplit h ' ')[1]? := by
  simp [extractToken, hne]

/-- C1, as the claim states it, fails at the empty header value: the header `''` holds no
token (it has no second space-separated field), yet `authHeader && ...` is then `''`, not
`null`, so the request goes to verification and is answered 403, not 401. -/
theorem empty_header_answered_403 :
    (jsSplit "" ' ')[1]? = none ∧
    statusesSent (authenticateToken testVerify ⟨some "", none⟩).2 = [403] ∧
    statusesSent (authenticateToken testVerify ⟨some "", none⟩).2 ≠ [401] ∧
    nextCalls (authenticateToken testVerify ⟨some "", none⟩).2 = 0 := by
  decide

/-- C1, amended. Required mode (`authenticateToken`), for every verifier and every request
whose Authorization header is absent or is a non-empty value, the token being the second
space-separated field of the header: if the header is absent, or the header has no second
field (it holds no space), it sends exactly the status 401, never calls `next` and leaves
the request as it was; if a token is present and fails verification it sends exactly 403,
never calls `next` and leaves the request as it was; if the token verifies it sends
nothing, stores the decoded payload in `req.user` and calls `next` exactly once. For every
request, the empty header included, exactly one of the three outcomes happens, decided by
the token the code extracts. -/
theorem authenticateToken_outcomes (verify : String → Option JsObject) (req : Req) :
    (req.authorization = none →
      statusesSent (authenticateToken verify req).2 = [401] ∧
      nextCalls (authenticateToken verify req).2 = 0 ∧
      (authenticateToken verify req).1 = req) ∧
    (∀ h, req.authorization = some h → h ≠ "" →
      ((jsSplit h ' ')[1]? = none ↔ ' ' ∉ h.toList) ∧
      ((jsSplit h ' ')[1]? = none →
        statusesSent (authenticateToken verify req).2 = [401] ∧
        nextCalls (authenticateToken verify req).2 = 0 ∧
        (authenticateToken verify req).1 = req) ∧
      (∀ token, (jsSplit h ' ')[1]? = some token → verify token = none →
        statusesSent (authenticateToken verify req).2 = [403] ∧
        nextCalls (authenticateToken verify req).2 = 0 ∧
        (authenticateToken verify req).1 = req) ∧
      (∀ token user, (jsSplit h ' ')[1]? = some token → verify token = some user →
        statusesSent (authenticateToken verify req).2 = [] ∧
        nextCalls (authenticateToken verify req).2 = 1 ∧
        (authenticateToken verify req).1.user = some user)) ∧
    (extractToken req.authorization = none →
      statusesSent (authenticateToken verify req).2 = [401] ∧
      nextCalls (authenticateToken verify req).2 = 0 ∧
      (authenticateToken verify req).1 = req) ∧
    (extractToken req.authorization = none ↔
      req.authorization = none ∨
        ∃ h, req.authorization = some h ∧ h ≠ "" ∧ ' ' ∉ h.toList) ∧
    (∀ token, extractToken req.authorization = some token → verify token = none →
      statusesSent (authenticateToken verify req).2 = [403] ∧
      nextCalls (authenticateToken verify req).2 = 0 ∧
      (authenticateToken verify req).1 = req) ∧
    (∀ token user, extractToken req.authorization = some token → verify token = some user →
      statusesSent (authenticateToken verify req).2 = [] ∧
      nextCalls (authenticateToken verify req).2 = 1 ∧
      (authenticateToken verify req).1.user = some user) ∧
    ((statusesSent (authenticateToken verify req).2 = [401] ∧
        nextCalls (authenticateToken verify req).2 = 0 ∧
        extractToken req.authorization = none) ∨
      (statusesSent (authenticateToken verify req).2 = [403] ∧
        nextCalls (authenticateToken verify req).2 = 0 ∧
        ∃ token, extractToken req.authorization = some token ∧ verify token = none) ∨
      (statusesSent (authenticateToken verify req).2 = [] ∧
        nextCalls (authenticateToken verify req).2 = 1 ∧
        ∃ token user, extractToken req.authorization = some token ∧
          verify token = some user ∧ (authenticateToken verify req).1.user = some user)) ∧
    ¬ (statusesSent (authenticateToken verify req).2 = [401] ∧
        statusesSent (authenticateToken verify req).2 = [403]) ∧
    ¬ (statusesSent (authenticateToken verify req).2 = [401] ∧
        nextCalls (authenticateToken verify req).2 = 1) ∧
    ¬ (statusesSent (authenticateToken verify req).2 = [403] ∧
        nextCalls (authenticateToken verify req).2 = 1) := by
  obtain ⟨h401, hiff, h403, hok, hrest⟩ := authenticateToken_cases verify req
  refine ⟨?_, ?_, h401, hiff, h403, hok, hrest⟩
  · intro hnone
    exact h401 (by rw [hnone]; rfl)
  · intro h hreq hne
    have htok : extractToken req.authorization = (jsSplit h ' ')[1]? := by
      rw [hreq]
      exact extractToken_nonempty h hne
    refine ⟨?_, ?_, ?_, ?_⟩
    · rw [jsSplit, List.getElem?_map, Option.map_eq_none']
      exact splitChars_second_eq_none ' ' h.toList
    · intro hn
      exact h401 (htok.trans hn)
    · intro token ht hv
      exact h403 token (htok.trans ht) hv
    · intro token user ht hv
      exact hok token user (htok.trans ht) hv

/-- A run of `authenticateToken_outcomes` on the headers of the test suite: `Bearer jwt`
is let through with the decoded payload, and an absent header is answered 401. -/
theorem authenticateToken_outcomes_witness :
    (statusesSent (authenticateToken testVerify ⟨some "Bearer jwt", none⟩).2 = [] ∧
      nextCalls (authenticateToken testVerify ⟨some "Bearer jwt", none⟩).2 = 1 ∧
      (authenticateToken testVerify ⟨some "Bearer jwt", none⟩).1.user =
        some [("userID", JsVal.undefined)]) ∧
    (statusesSent (authenticateToken testVerify ⟨none, none⟩).2 = [401] ∧
      nextCalls (authenticateToken testVerify ⟨none, none⟩).2 = 0 ∧
      (authenticateToken testVerify ⟨none, none⟩).1 = ⟨none, none⟩) :=
  ⟨((authenticateToken_outcomes testVerify ⟨some "Bearer jwt", none⟩).2.1 "Bearer jwt" rfl
      (by decide)).2.2.2 "jwt" [("userID", JsVal.undefined)] (by decide) (by decide),
    (authenticateToken_outcomes testVerify ⟨none, none⟩).1 rfl⟩

/-- C2. Optional mode (`authenticateTokenIfPresentButNextAnyway`), for every verifier and
every request: it sends no response, calls `next` exactly once, leaves `req.user` as it was
unless a token is present and verifies, and a request that arrives without an identity
leaves with one if and only if a token is present and passes verification (the identity is
then the decoded payload). -/
theorem authenticateTokenIfPresentButNextAnyway_never_rejects
    (verify : String → Option JsObject) (req : Req) :
    statusesSent (authenticateTokenIfPresentButNextAnyway verify req).2 = [] ∧
    nextCalls (authenticateTokenIfPresentButNextAnyway verify req).2 = 1 ∧
    (authenticateTokenIfPresentButNextAnyway verify req).1.authorization = req.authorization ∧
    (∀ token user, extractToken req.authorization = some token → verify token = some user →
      (authenticateTokenIfPresentButNextAnyway verify req).1.user = some user) ∧
    (¬ Authenticated verify req.authorization →
      (authenticateTokenIfPresentButNextAnyway verify req).1.user = req.user) ∧
    (req.user = none →
      ((∃ user, (authenticateTokenIfPresentButNextAnyway verify req).1.user = some user) ↔
        Authenticated verify req.authorization)) := by
  unfold authenticateTokenIfPresentButNextAnyway Authenticated
  cases ht : extractToken req.authorization with
  | none => simp [statusesSent, nextCalls]; intro h; simp [h]
  | some t =>
    cases hv : verify t with
    | none =>
      simp [hv, statusesSent, nextCalls]
      refine ⟨?_, ?_⟩
      · rintro token user rfl
        simp [hv]
      · intro h
        simp [h]
    | some u =>
      simp [hv, statusesSent, nextCalls]
      rintro token user rfl
      simp [hv]

/-! ## Routes behind the middlewares -/

theorem runEffects_next {σ : Type} (handler : σ → σ × List Response) (s : σ) :
    runEffects handler [Effect.next] s = handler s := by
  simp [runEffects]

theorem runEffects_sendStatus {σ : Type} (handler : σ → σ × List Response) (c : Nat) (s : σ) :
    runEffects handler [Effect.sendStatus c] s = (s, [⟨c, Body.text (statusText c)⟩]) := by
  simp [runEffects]

/-- Behind the required middleware a verified token runs the handler, on the request that
carries the decoded payload. -/
theorem route_authenticateToken_ok {σ : Type} (verify : String → Option JsObject)
    (handler : Req → σ → σ × List Response) (authorization : Option String) (s : σ)
    (token : String) (user : JsObject) (ht : extractToken authorization = some token)
    (hv : verify token = some user) :
    route (authenticateToken verify) handler (freshReq authorization) s =
      handler { authorization := authorization, user := some user } s := by
  simp [route, authenticateToken, freshReq, ht, hv, runEffects_next]

/-- Behind the optional middleware the handler always runs; the request carries an identity
exactly when the caller is authenticated. -/
theorem route_optional {σ : Type} (verify : String → Option JsObject)
    (handler : Req → σ → σ × List Response) (authorization : Option String) (s : σ) :
    ∃ user : Option JsObject,
      route (authenticateTokenIfPresentButNextAnyway verify) handler (freshReq authorization) s =
        handler { authorization := authorization, user := user } s ∧
      (user.isSome = true ↔ Authenticated verify authorization) := by
  unfold Authenticated
  cases ht : extractToken authorization with
  | none =>
    exact ⟨none, by
      simp [route, authenticateTokenIfPresentButNextAnyway, freshReq, ht, runEffects_next]⟩
  | some t =>
    cases hv : verify t with
    | none =>
      refine ⟨none, by
        simp [route, authenticateTokenIfPresentButNextAnyway, freshReq, ht, hv,
          runEffects_next], ?_⟩
      simp [hv]
    | some u =>
      exact ⟨some u, by
        simp [route, authenticateTokenIfPresentButNextAnyway, freshReq, ht, hv,
          runEffects_next], by simp [hv]⟩

theorem dateLe_total (a b : Option Int) : dateLe a b = true ∨ dateLe b a = true := by
  cases a <;> cases b <;> simp [dateLe]
  exact le_total _ _

theorem dateLe_trans (a b c : Option Int) (hab : dateLe a b = true) (hbc : dateLe b c = true) :
    dateLe a c = true := by
  cases a <;> cases b <;> cases c <;> simp_all [dateLe]
  exact le_trans hab hbc

/-- The rows of a listing are in `ORDER BY date` order and are the selected rows. -/
theorem insertionSort_dateOrder (l : List BlogPost) :
    (l.insertionSort dateOrder).Sorted dateOrder ∧ (l.insertionSort dateOrder).Perm l := by
  haveI : IsTotal BlogPost dateOrder := ⟨fun a b => dateLe_total a.date b.date⟩
  haveI : IsTrans BlogPost dateOrder := ⟨fun a b c => dateLe_trans a.date b.date c.date⟩
  exact ⟨List.sorted_insertionSort dateOrder l, List.perm_insertionSort dateOrder l⟩

/-! ## Post listing -/

/-- C3. Listing (`GET /api/blog/posts`) when the read succeeds, for every verifier, store,
current time `now` and Authorization header: the response is 200 with rows that are in
ascending date order and are, with multiplicity, exactly the stored posts `p` for which the
caller is authenticated or (`p.deleted = 0` and `p.date <= now`); so an anonymous caller
receives no deleted post and no post dated after `now`, and an authenticated caller receives
every post. On the store of the test suite (one past post, one post dated a day ahead) the
authenticated list has length 2 and the anonymous list has length 1. -/
theorem routeList_visibility :
    (∀ (verify : String → Option JsObject) (now : Int) (authorization : Option String)
        (store : List BlogPost),
      ∃ (rows : List BlogPost) (visible : BlogPost → Bool),
        routeList verify now false authorization store = (store, [⟨200, Body.posts rows⟩]) ∧
        (∀ p, visible p = true ↔
          (Authenticated verify authorization ∨
            (p.deleted = 0 ∧ ∃ d, p.date = some d ∧ d ≤ now))) ∧
        rows.Perm (store.filter visible) ∧
        rows.Sorted dateOrder ∧
        (¬ Authenticated verify authorization →
          ∀ p ∈ rows, p.deleted = 0 ∧ ∃ d, p.date = some d ∧ d ≤ now) ∧
        (Authenticated verify authorization → rows.Perm store)) ∧
    (routeList testVerify 1700000001000 false (some "Bearer jwt") testStoreWithFuture).2.map
        (fun r => (r.status, r.body.length?)) = [(200, some 2)] ∧
    (routeList testVerify 1700000001000 false none testStoreWithFuture).2.map
        (fun r => (r.status, r.body.length?)) = [(200, some 1)] := by
  refine ⟨?_, by decide, by decide⟩
  intro verify now authorization store
  obtain ⟨user, hroute, hauth⟩ := route_optional verify (listPosts now false) authorization store
  have hvis : ∀ p : BlogPost, (sqlDateLe p.date now && p.deleted == 0) = true ↔
      (p.deleted = 0 ∧ ∃ d, p.date = some d ∧ d ≤ now) := by
    intro p
    cases hd : p.date <;> simp [sqlDateLe, and_comm]
  cases user with
  | none =>
    have hna : ¬ Authenticated verify authorization := by
      intro h
      simpa using hauth.mpr h
    refine ⟨_, fun p => sqlDateLe p.date now && p.deleted == 0, ?_, ?_,
      (insertionSort_dateOrder _).2, (insertionSort_dateOrder _).1, ?_, ?_⟩
    · rw [routeList, hroute]
      simp [listPosts, listWhere]
    · intro p
      simp only [hna, false_or]
      exact hvis p
    · intro _ p hp
      have hp2 : p ∈ store.filter fun p => sqlDateLe p.date now && p.deleted == 0 :=
        (insertionSort_dateOrder _).2.mem_iff.mp hp
      exact (hvis p).mp (List.mem_filter.mp hp2).2
    · intro h
      exact absurd h hna
  | some u =>
    have ha : Authenticated verify authorization := hauth.mp (by simp)
    refine ⟨_, fun _ => true, ?_, ?_, (insertionSort_dateOrder _).2,
      (insertionSort_dateOrder _).1, ?_, ?_⟩
    · rw [routeList, hroute]
      simp [listPosts, listWhere]
    · intro p
      simp [ha]
    · intro h
      exact absurd ha h
    · intro _
      simpa using (insertionSort_dateOrder (store.filter fun _ => true)).2

/-! ## Get by slug -/

/-- C4. Get-by-slug (`GET /api/blog/posts/:slug`) when the read succeeds, for every store,
slug and Authorization header: if a row with that slug and `deleted = 0` exists the response
is 200 with such a row of the store, otherwise it is 200 with an empty body; the result does
not depend on the Authorization header (valid token, invalid token, none), and whatever the
header and the storage outcome no response ever carries a row with `deleted` other than 0 or
with another slug. -/
theorem routeGetBySlug_hides_deleted (authorization : Option String) (slug : String)
    (store : List BlogPost) :
    ((∃ p ∈ store, p.slug = slug ∧ p.deleted = 0) →
      ∃ row, routeGetBySlug false authorization slug store = (store, [⟨200, Body.post row⟩]) ∧
        row ∈ store ∧ row.slug = slug ∧ row.deleted = 0) ∧
    ((¬ ∃ p ∈ store, p.slug = slug ∧ p.deleted = 0) →
      routeGetBySlug false authorization slug store = (store, [⟨200, Body.empty⟩])) ∧
    (∀ (other : Option String) (dbErr : Bool),
      routeGetBySlug dbErr other slug store = routeGetBySlug dbErr authorization slug store) ∧
    (∀ (dbErr : Bool) (r : Response) (row : BlogPost),
      r ∈ (routeGetBySlug dbErr authorization slug store).2 → r.body = Body.post row →
        row ∈ store ∧ row.slug = slug ∧ row.deleted = 0) := by
  have hfound : ∀ row, store.find? (fun p => p.slug == slug && p.deleted == 0) = some row →
      row ∈ store ∧ row.slug = slug ∧ row.deleted = 0 := by
    intro row h
    have h1 := List.find?_some h
    have h2 := List.mem_of_find?_eq_some h
    simp at h1
    exact ⟨h2, h1.1, h1.2⟩
  refine ⟨?_, ?_, fun _ _ => rfl, ?_⟩
  · rintro ⟨p, hp, hs, hd⟩
    cases hf : store.find? (fun p => p.slug == slug && p.deleted == 0) with
    | none =>
      have := List.find?_eq_none.mp hf p hp
      simp [hs, hd] at this
    | some row =>
      exact ⟨row, by simp [routeGetBySlug, getPostBySlug, hf], hfound row hf⟩
  · intro hno
    cases hf : store.find? (fun p => p.slug == slug && p.deleted == 0) with
    | none => simp [routeGetBySlug, getPostBySlug, hf]
    | some row =>
      obtain ⟨h1, h2, h3⟩ := hfound row hf
      exact absurd ⟨row, h1, h2, h3⟩ hno
  · intro dbErr r row hr hbody
    cases dbErr with
    | true =>
      simp [routeGetBySlug, getPostBySlug] at hr
      subst hr
      simp at hbody
    | false =>
      cases hf : store.find? (fun p => p.slug == slug && p.deleted == 0) with
      | none =>
        simp [routeGetBySlug, getPostBySlug, hf] at hr
        subst hr
        simp at hbody
      | some found =>
        simp [routeGetBySlug, getPostBySlug, hf] at hr
        subst hr
        simp at hbody
        subst hbody
        exact hfound _ hf

/-! ## Login -/

/-- The result of the login handler in terms of the row the lookup returns. -/
theorem login_eq (compare : String → String → Bool) (users : List UserRow)
    (username password : String) :
    login compare users username password =
      match users.find? fun u => u.username == username with
      | none => ⟨401, Body.text "No user found"⟩
      | some row =>
        if compare password row.passwordHash = true then
          ⟨200, Body.token ⟨[("userID", JsVal.undefined)], "6h"⟩⟩
        else ⟨401, Body.text "Invalid credentials"⟩ := by
  unfold login
  cases hf : users.find? fun u => u.username == username with
  | none => simp
  | some row =>
    cases hc : compare password row.passwordHash <;>
      simp [UserRow.toObject, JsObject.get, List.lookup, hc]

/-- With unique usernames the lookup returns the one row of that name. -/
theorem find?_username_of_pairwise (users : List UserRow) (username : String)
    (hu : users.Pairwise fun a b => a.username ≠ b.username) (row : UserRow) :
    users.find? (fun u => u.username == username) = some row ↔
      row ∈ users ∧ row.username = username := by
  induction users with
  | nil => simp
  | cons u us ih =>
    rw [List.pairwise_cons] at hu
    by_cases hname : u.username = username
    · simp only [List.find?_cons, hname, beq_self_eq_true, Option.some.injEq, List.mem_cons]
      constructor
      · rintro rfl
        exact ⟨Or.inl rfl, hname⟩
      · rintro ⟨h | h, hr⟩
        · exact h.symm
        · exact absurd (hname.trans hr.symm) (hu.1 row h)
    · have hb : (u.username == username) = false := by simpa using hname
      simp only [List.find?_cons, hb, List.mem_cons]
      rw [ih hu.2]
      constructor
      · rintro ⟨h, hr⟩
        exact ⟨Or.inr h, hr⟩
      · rintro ⟨h | h, hr⟩
        · subst h
          exact absurd hr hname
        · exact ⟨h, hr⟩

/-- C5, as the claim states it, fails: in a users table with two rows of the same username
the lookup returns the first, so a password that verifies against the second row only is
answered 401 although a row with that username and a matching hash exists. -/
theorem login_second_row_ignored :
    (∃ row ∈ [(⟨1, "testUser", "bcrypt:old password"⟩ : UserRow),
        ⟨2, "testUser", "bcrypt:password123"⟩],
      row.username = "testUser" ∧ testCompare "password123" row.passwordHash = true) ∧
    login testCompare [⟨1, "testUser", "bcrypt:old password"⟩,
      ⟨2, "testUser", "bcrypt:password123"⟩] "testUser" "password123" =
        ⟨401, Body.text "Invalid credentials"⟩ := by
  refine ⟨⟨⟨2, "testUser", "bcrypt:password123"⟩, by decide, by decide, by decide⟩, by decide⟩

/-- C5, amended. Login (`POST /api/blog/login`), for every hash comparison, users table and
(username, password) pair: the response is 200 with a token if the first row with that
username (the row the lookup returns) has a hash the password verifies against, and 401
otherwise; when no two rows share a username, the response is 200 exactly when some row with
that username has a hash the password verifies against, and 401 for every other pair. -/
theorem login_first_row_decides (compare : String → String → Bool) (users : List UserRow)
    (username password : String) :
    ((∃ row, users.find? (fun u => u.username == username) = some row ∧
        compare password row.passwordHash = true) →
      ∃ token, login compare users username password = ⟨200, Body.token token⟩) ∧
    ((¬ ∃ row, users.find? (fun u => u.username == username) = some row ∧
        compare password row.passwordHash = true) →
      (login compare users username password).status = 401) ∧
    (users.Pairwise (fun a b => a.username ≠ b.username) →
      ((∃ row ∈ users, row.username = username ∧ compare password row.passwordHash = true) →
        ∃ token, login compare users username password = ⟨200, Body.token token⟩) ∧
      ((¬ ∃ row ∈ users, row.username = username ∧
          compare password row.passwordHash = true) →
        (login compare users username password).status = 401)) := by
  have h1 : (∃ row, users.find? (fun u => u.username == username) = some row ∧
        compare password row.passwordHash = true) →
      ∃ token, login compare users username password = ⟨200, Body.token token⟩ := by
    rintro ⟨row, hf, hc⟩
    exact ⟨⟨[("userID", JsVal.undefined)], "6h"⟩, by rw [login_eq, hf]; simp [hc]⟩
  have h2 : (¬ ∃ row, users.find? (fun u => u.username == username) = some row ∧
        compare password row.passwordHash = true) →
      (login compare users username password).status = 401 := by
    intro hno
    rw [login_eq]
    cases hf : users.find? (fun u => u.username == username) with
    | none => rfl
    | some row =>
      have hc : ¬ compare password row.passwordHash = true := fun hc => hno ⟨row, hf, hc⟩
      simp [hc]
  refine ⟨h1, h2, fun hu => ⟨?_, ?_⟩⟩
  · rintro ⟨row, hmem, hname, hc⟩
    exact h1 ⟨row, (find?_username_of_pairwise users username hu row).mpr ⟨hmem, hname⟩, hc⟩
  · intro hno
    apply h2
    rintro ⟨row, hf, hc⟩
    obtain ⟨hmem, hname⟩ := (find?_username_of_pairwise users username hu row).mp hf
    exact hno ⟨row, hmem, hname, hc⟩

/-- A run of `login_first_row_decides` on the users table of the test suite: the stored
user logs in, with unique usernames. -/
theorem login_first_row_decides_witness :
    ∃ token, login testCompare [⟨1, "testUser", "bcrypt:password123"⟩] "testUser"
      "password123" = ⟨200, Body.token token⟩ :=
  ((login_first_row_decides testCompare [⟨1, "testUser", "bcrypt:password123"⟩] "testUser"
      "password123").2.2 (by simp)).1
    ⟨⟨1, "testUser", "bcrypt:password123"⟩, by simp, rfl, by decide⟩

/-- C6. The token a successful login signs, for every hash comparison, users table and
(username, password) pair: a login is answered 401 or is answered 200 with a token signed
with `expiresIn: '6h'` whose payload is the single field `userID` holding `undefined`, because
the row object has the properties `id`, `username` and `passwordHash` and no `userID`. For
the stored user with id 1 the payload is not `userID = 1`. -/
theorem login_token_payload :
    (∀ (compare : String → String → Bool) (users : List UserRow) (username password : String),
      (login compare users username password).status = 401 ∨
      login compare users username password =
        ⟨200, Body.token ⟨[("userID", JsVal.undefined)], "6h"⟩⟩) ∧
    login testCompare [⟨1, "testUser", "bcrypt:password123"⟩] "testUser" "password123" =
        ⟨200, Body.token ⟨[("userID", JsVal.undefined)], "6h"⟩⟩ ∧
    login testCompare [⟨1, "testUser", "bcrypt:password123"⟩] "testUser" "password123" ≠
        ⟨200, Body.token ⟨[("userID", JsVal.num 1)], "6h"⟩⟩ := by
  refine ⟨?_, by decide, by decide⟩
  intro compare users username password
  rw [login_eq]
  cases hf : users.find? (fun u => u.username == username) with
  | none => exact Or.inl rfl
  | some row =>
    cases hc : compare password row.passwordHash with
    | false => exact Or.inl (by simp [hc])
    | true => exact Or.inr (by simp [hc])

/-! ## Create -/

/-- C7, as the claim states it, fails at the supplied date 0: `req.body.date || +(new Date())`
takes 0 for absent, so an authenticated create with date 0 at time 1700000000100 is answered
201 and stores the current time, not 0. -/
theorem routeCreate_date_zero_replaced :
    (routeCreate testVerify slugify 1700000000100 false (some "Bearer jwt")
        { testPost with date := some 0 } []).2 = [⟨201, Body.success⟩] ∧
    (routeCreate testVerify slugify 1700000000100 false (some "Bearer jwt")
        { testPost with date := some 0 } []).1.map BlogPost.date = [some 1700000000100] ∧
    (routeCreate testVerify slugify 1700000000100 false (some "Bearer jwt")
        { testPost with date := some 0 } []).1.map BlogPost.date ≠ [some 0] := by
  decide

/-- C7, amended. Create (`POST /api/blog/posts`), for every verifier, slug function, current
time, body and store: an authenticated request whose insert succeeds is answered 201 and
leaves the store as it was with exactly one row appended; the new row has a fresh id,
`slug = slugFn title`, `deleted = 0`, title, content, headerImage, thumbnailImage, tags and
byline as supplied, date equal to the supplied date whenever that is an integer other than
0, and date equal to the current time when no date is supplied. In the test suite, title
`test title` with date `timeAtPost` is stored with that date and slug `test-title`. -/
theorem routeCreate_appends_row :
    (∀ (verify : String → Option JsObject) (slugFn : String → String) (now : Int)
        (authorization : Option String) (body : PostBody) (store : List BlogPost),
      Authenticated verify authorization →
      ∃ row : BlogPost,
        routeCreate verify slugFn now false authorization body store =
          (store ++ [row], [⟨201, Body.success⟩]) ∧
        (∀ p ∈ store, p.id < row.id) ∧
        row.slug = slugFn body.title ∧ row.deleted = 0 ∧ row.title = body.title ∧
        row.content = body.content ∧ row.headerImage = body.headerImage ∧
        row.thumbnailImage = body.thumbnailImage ∧ row.tags = body.tags ∧
        row.byline = body.byline ∧
        (∀ d, body.date = some d → d ≠ 0 → row.date = some d) ∧
        (body.date = none → row.date = some now)) ∧
    (∀ timeAtPost now : Int, timeAtPost ≠ 0 →
      (routeCreate testVerify slugify now false (some "Bearer jwt")
          { testPost with date := some timeAtPost } []).1.map
        (fun p => (p.title, p.slug, p.date)) = [("test title", "test-title", some timeAtPost)]) := by
  have hmax : ∀ (l : List BlogPost) (m : Nat),
      m ≤ (l.map BlogPost.id).foldl max m ∧ ∀ p ∈ l, p.id ≤ (l.map BlogPost.id).foldl max m := by
    intro l
    induction l with
    | nil => intro m; simp
    | cons a as ih =>
      intro m
      simp only [List.map_cons, List.foldl_cons, List.mem_cons, forall_eq_or_imp]
      refine ⟨le_trans (le_max_left _ _) (ih _).1, le_trans (le_max_right _ _) (ih _).1,
        (ih _).2⟩
  refine ⟨?_, ?_⟩
  · intro verify slugFn now authorization body store hauth
    obtain ⟨token, user, ht, hv⟩ := hauth
    refine ⟨{ id := nextRowid store, slug := slugFn body.title, content := body.content,
              title := body.title, headerImage := body.headerImage,
              thumbnailImage := body.thumbnailImage, date := some (jsOr body.date now),
              deleted := 0, tags := body.tags, byline := body.byline },
      ?_, ?_, rfl, rfl, rfl, rfl, rfl, rfl, rfl, rfl, ?_, ?_⟩
    · rw [routeCreate, route_authenticateToken_ok verify _ authorization store token user ht hv]
      simp only [createPost, Bool.false_eq_true, if_false]
    · intro p hp
      exact Nat.lt_succ_of_le ((hmax store 0).2 p hp)
    · intro d hd hne
      simp [hd, jsOr, hne]
    · intro hd
      simp [hd, jsOr]
  · intro timeAtPost now hne
    have ht : extractToken (some "Bearer jwt") = some "jwt" := by decide
    have hv : testVerify "jwt" = some [("userID", JsVal.undefined)] := by decide
    rw [routeCreate, route_authenticateToken_ok testVerify _ _ _ "jwt" _ ht hv]
    have hs : slugify "test title" = "test-title" := by decide
    simp [createPost, testPost, jsOr, hne, hs]

/-- A run of `routeCreate_appends_row` on the first creation of the test suite. -/
theorem routeCreate_appends_row_witness :
    ∃ row : BlogPost,
      routeCreate testVerify slugify 1700000000100 false (some "Bearer jwt") testPost [] =
        ([] ++ [row], [⟨201, Body.success⟩]) ∧
      row.slug = "test-title" ∧ row.date = some 1700000000000 := by
  obtain ⟨row, h, _, hslug, _, _, _, _, _, _, _, hdate, _⟩ :=
    routeCreate_appends_row.1 testVerify slugify 1700000000100 (some "Bearer jwt") testPost []
      ⟨"jwt", [("userID", JsVal.undefined)], by decide, by decide⟩
  exact ⟨row, h, hslug.trans (by decide), hdate 1700000000000 rfl (by decide)⟩

/-! ## Update and soft delete -/

theorem jsOr_zero (a : Option Int) : jsOr a 0 = a.getD 0 := by
  cases a with
  | none => rfl
  | some v =>
    by_cases h : v = 0
    · simp [jsOr, h]
    · simp [jsOr, h]

/-- The anonymous listing: the rows with `date <= now` and `deleted = 0`, sorted. -/
theorem routeList_anonymous (verify : String → Option JsObject) (now : Int)
    (store : List BlogPost) :
    routeList verify now false none store =
      (store, [⟨200, Body.posts ((store.filter fun p =>
        sqlDateLe p.date now && p.deleted == 0).insertionSort dateOrder)⟩]) := by
  simp [routeList, route, authenticateTokenIfPresentButNextAnyway, freshReq, extractToken,
    runEffects_next, listPosts, listWhere]

/-- Behind the required middleware any request either is rejected with the store untouched
or runs the handler. -/
theorem route_authenticateToken_cases {σ : Type} (verify : String → Option JsObject)
    (handler : σ → σ × List Response) (authorization : Option String) (s : σ) :
    (route (authenticateToken verify) (fun _ => handler) (freshReq authorization) s).1 = s ∨
    route (authenticateToken verify) (fun _ => handler) (freshReq authorization) s =
      handler s := by
  cases ht : extractToken authorization with
  | none => left; simp [route, authenticateToken, freshReq, ht, runEffects_sendStatus]
  | some t =>
    cases hv : verify t with
    | none => left; simp [route, authenticateToken, freshReq, ht, hv, runEffects_sendStatus]
    | some u => right; simp [route, authenticateToken, freshReq, ht, hv, runEffects_next]

/-- The store an authenticated, successful update leaves. -/
theorem routeUpdate_ok (verify : String → Option JsObject) (slugFn : String → String)
    (authorization : Option String) (slug : String) (body : PostBody) (store : List BlogPost)
    (hauth : Authenticated verify authorization) :
    routeUpdate verify slugFn false authorization slug body store =
      (store.map fun p =>
          if p.slug = slug then
            { id := p.id, slug := slugFn body.title, content := body.content,
              title := body.title, date := body.date, headerImage := body.headerImage,
              thumbnailImage := body.thumbnailImage, tags := body.tags,
              deleted := body.deleted.getD 0, byline := body.byline }
          else p,
        [⟨201, Body.text "success"⟩]) := by
  obtain ⟨token, user, ht, hv⟩ := hauth
  rw [routeUpdate, route_authenticateToken_ok verify _ authorization store token user ht hv]
  simp only [updatePost, Bool.false_eq_true, if_false, jsOr_zero]

/-- The store an authenticated, successful soft delete leaves. -/
theorem routeDelete_ok (verify : String → Option JsObject) (authorization : Option String)
    (slug : String) (store : List BlogPost) (hauth : Authenticated verify authorization) :
    routeDelete verify false authorization slug store =
      (store.map fun p => if p.slug = slug then { p with deleted := 1 } else p,
        [⟨201, Body.text "success"⟩]) := by
  obtain ⟨token, user, ht, hv⟩ := hauth
  rw [routeDelete, route_authenticateToken_ok verify _ authorization store token user ht hv]
  simp only [deletePost, Bool.false_eq_true, if_false]

/-- C8. Update (`PUT /api/blog/posts/:slug`), for every verifier, slug function, header, path
slug, body and store: an authenticated request whose write succeeds is answered 201; the
store keeps its rows in place, every row whose slug was the path slug now has content, title,
headerImage, thumbnailImage, date, tags and byline equal to the request's values, slug
`slugFn title`, its old id, and `deleted` equal to the request's value when supplied and 0
when not, and every other row is unchanged. When `deleted` is not supplied or is 0 and the
supplied date is not after `now`, every updated row is in the anonymous listing at `now`,
whether it was soft-deleted before or not. -/
theorem routeUpdate_overwrites (verify : String → Option JsObject) (slugFn : String → String)
    (authorization : Option String) (slug : String) (body : PostBody) (store : List BlogPost)
    (hauth : Authenticated verify authorization) :
    ∃ store' : List BlogPost,
      routeUpdate verify slugFn false authorization slug body store =
        (store', [⟨201, Body.text "success"⟩]) ∧
      store'.length = store.length ∧
      List.Forall₂
        (fun p q =>
          (p.slug = slug →
            q = { id := p.id, slug := slugFn body.title, content := body.content,
                  title := body.title, date := body.date, headerImage := body.headerImage,
                  thumbnailImage := body.thumbnailImage, tags := body.tags,
                  deleted := body.deleted.getD 0, byline := body.byline }) ∧
          (p.slug ≠ slug → q = p))
        store store' ∧
      (∀ (now d : Int), body.deleted = none ∨ body.deleted = some 0 → body.date = some d →
        d ≤ now → ∀ p ∈ store, p.slug = slug →
        ∃ rows, routeList verify now false none store' = (store', [⟨200, Body.posts rows⟩]) ∧
          ({ id := p.id, slug := slugFn body.title, content := body.content,
             title := body.title, date := some d, headerImage := body.headerImage,
             thumbnailImage := body.thumbnailImage, tags := body.tags,
             deleted := 0, byline := body.byline } : BlogPost) ∈ rows) := by
  refine ⟨_, routeUpdate_ok verify slugFn authorization slug body store hauth, ?_, ?_, ?_⟩
  · simp
  · rw [List.forall₂_map_right_iff, List.forall₂_same]
    intro p _
    by_cases hp : p.slug = slug
    · simp [hp]
    · simp [hp]
  · intro now d hdel hdate hle p hp hslug
    refine ⟨_, routeList_anonymous verify now _, ?_⟩
    apply (insertionSort_dateOrder _).2.mem_iff.mpr
    rw [List.mem_filter]
    refine ⟨List.mem_map.mpr ⟨p, hp, ?_⟩, by simp [sqlDateLe, hle]⟩
    have hz : body.deleted.getD 0 = 0 := by
      rcases hdel with h | h <;> simp [h]
    simp [hslug, hz, hdate]

/-- A run of `routeUpdate_overwrites` on the undelete of the test suite: the test post,
soft-deleted, is updated with `deleted: 0` and is in the anonymous listing again. -/
theorem routeUpdate_overwrites_witness :
    ∃ store' : List BlogPost,
      routeUpdate testVerify slugify false (some "Bearer jwt") "test-title"
          { testPost with deleted := some 0 }
          (routeDelete testVerify false (some "Bearer jwt") "test-title" testStore).1 =
        (store', [⟨201, Body.text "success"⟩]) ∧
      store'.length = 1 ∧
      ∃ rows, routeList testVerify 1700000001000 false none store' =
          (store', [⟨200, Body.posts rows⟩]) ∧
        ({ id := 1, slug := "test-title", content := some "test content", title := "test title",
           date := some 1700000000000, headerImage := some "test header image",
           thumbnailImage := some "test thumbnail image", tags := none, deleted := 0,
           byline := none } : BlogPost) ∈ rows := by
  obtain ⟨store', h1, h2, _, h4⟩ :=
    routeUpdate_overwrites testVerify slugify (some "Bearer jwt") "test-title"
      { testPost with deleted := some 0 }
      (routeDelete testVerify false (some "Bearer jwt") "test-title" testStore).1
      ⟨"jwt", [("userID", JsVal.undefined)], by decide, by decide⟩
  refine ⟨store', h1, h2.trans (by decide), ?_⟩
  exact h4 1700000001000 1700000000000 (Or.inr rfl) rfl (by decide)
    { id := 1, slug := "test-title", content := some "test content", title := "test title",
      date := some 1700000000000, headerImage := some "test header image",
      thumbnailImage := some "test thumbnail image", tags := none, deleted := 1,
      byline := none } (by decide) rfl

/-- The optional middleware never keeps the listing handler from running, and the listing
leaves the store as it is. -/
theorem routeList_store (verify : String → Option JsObject) (now : Int) (dbErr : Bool)
    (authorization : Option String) (store : List BlogPost) :
    (routeList verify now dbErr authorization store).1 = store := by
  obtain ⟨user, hroute, _⟩ := route_optional verify (listPosts now dbErr) authorization store
  rw [routeList, hroute]
  unfold listPosts
  cases user <;> cases dbErr <;> simp [listWhere]

theorem routeGetBySlug_store (dbErr : Bool) (authorization : Option String) (slug : String)
    (store : List BlogPost) : (routeGetBySlug dbErr authorization slug store).1 = store := by
  unfold routeGetBySlug getPostBySlug
  cases dbErr with
  | true => simp
  | false =>
    cases store.find? (fun p => p.slug == slug && p.deleted == 0) <;> simp

/-- Every request leaves the store as it was, appends one row whose slug is the slug of its
title, or rewrites rows in place; a rewritten row keeps its id and either is the old row
with another `deleted` flag or has the slug of its new title. -/
theorem serve_store_cases (verify : String → Option JsObject) (slugFn : String → String)
    (store : List BlogPost) (call : Call) :
    (serve verify slugFn store call).1 = store ∨
    (∃ row, (serve verify slugFn store call).1 = store ++ [row] ∧
      row.slug = slugFn row.title) ∨
    (∃ f : BlogPost → BlogPost, (serve verify slugFn store call).1 = store.map f ∧
      ∀ p, (f p).id = p.id ∧
        (((f p).slug = p.slug ∧ (f p).title = p.title) ∨ (f p).slug = slugFn (f p).title)) := by
  cases call with
  | create now dbErr authorization body =>
    rcases route_authenticateToken_cases verify (createPost slugFn now dbErr body)
      authorization store with h | h
    · exact Or.inl h
    · cases dbErr with
      | true => exact Or.inl (by simp [serve, routeCreate, h, createPost])
      | false =>
        refine Or.inr (Or.inl ⟨?row, ?_, ?_⟩)
        · exact { id := nextRowid store, slug := slugFn body.title, content := body.content,
                  title := body.title, date := some (jsOr body.date now),
                  headerImage := body.headerImage, thumbnailImage := body.thumbnailImage,
                  tags := body.tags, deleted := 0, byline := body.byline }
        · simp only [serve, routeCreate, h, createPost, Bool.false_eq_true, if_false]
        · rfl
  | update dbErr authorization slug body =>
    rcases route_authenticateToken_cases verify (updatePost slugFn dbErr slug body)
      authorization store with h | h
    · exact Or.inl h
    · cases dbErr with
      | true => exact Or.inl (by simp [serve, routeUpdate, h, updatePost])
      | false =>
        refine Or.inr (Or.inr ⟨_, by
          simp only [serve, routeUpdate, h, updatePost, Bool.false_eq_true, if_false]
          rfl, ?_⟩)
        intro p
        by_cases hp : p.slug = slug
        · simp [hp]
        · simp [hp]
  | delete dbErr authorization slug =>
    rcases route_authenticateToken_cases verify (deletePost dbErr slug)
      authorization store with h | h
    · exact Or.inl h
    · cases dbErr with
      | true => exact Or.inl (by simp [serve, routeDelete, h, deletePost])
      | false =>
        refine Or.inr (Or.inr ⟨_, by
          simp only [serve, routeDelete, h, deletePost, Bool.false_eq_true, if_false]
          rfl, ?_⟩)
        intro p
        by_cases hp : p.slug = slug
        · simp [hp]
        · simp [hp]
  | list now dbErr authorization => exact Or.inl (routeList_store verify now dbErr authorization store)
  | get dbErr authorization slug => exact Or.inl (routeGetBySlug_store dbErr authorization slug store)

/-- C9. Soft delete (`DELETE /api/blog/posts/:slug`), for every verifier, header, slug and
store: an authenticated request whose write succeeds is answered 201; the store has as many
rows as before, in place every row whose slug is the path slug is the old row with
`deleted = 1` (id, slug, title, content, headerImage, thumbnailImage, date, tags and byline
unchanged) and every other row is unchanged; and no request of the post routes, whatever its
header and storage outcome, removes a row: the ids stored before are a prefix of the ids
stored after. -/
theorem routeDelete_sets_flag_only (verify : String → Option JsObject)
    (authorization : Option String) (slug : String) (store : List BlogPost)
    (hauth : Authenticated verify authorization) :
    ∃ store' : List BlogPost,
      routeDelete verify false authorization slug store =
        (store', [⟨201, Body.text "success"⟩]) ∧
      store'.length = store.length ∧
      List.Forall₂
        (fun p q =>
          (p.slug = slug →
            q = { id := p.id, slug := p.slug, content := p.content, title := p.title,
                  date := p.date, headerImage := p.headerImage,
                  thumbnailImage := p.thumbnailImage, tags := p.tags, deleted := 1,
                  byline := p.byline }) ∧
          (p.slug ≠ slug → q = p))
        store store' ∧
      (∀ (slugFn : String → String) (call : Call) (before : List BlogPost),
        before.map BlogPost.id <+: (serve verify slugFn before call).1.map BlogPost.id) := by
  refine ⟨_, routeDelete_ok verify authorization slug store hauth, ?_, ?_, ?_⟩
  · simp
  · rw [List.forall₂_map_right_iff, List.forall₂_same]
    intro p _
    by_cases hp : p.slug = slug
    · simp [hp]
    · simp [hp]
  · intro slugFn call before
    rcases serve_store_cases verify slugFn before call with h | ⟨row, h, _⟩ | ⟨f, h, hf⟩
    · rw [h]
    · rw [h]
      simp
    · rw [h, List.map_map]
      have : (BlogPost.id ∘ f) = BlogPost.id := funext fun p => (hf p).1
      rw [this]

/-- A run of `routeDelete_sets_flag_only` on the deletion of the test suite: the test post
stays in the store, with `deleted = 1`. -/
theorem routeDelete_sets_flag_only_witness :
    Authenticated testVerify (some "Bearer jwt") ∧
    ∃ store' : List BlogPost,
      routeDelete testVerify false (some "Bearer jwt") "test-title" testStore =
        (store', [⟨201, Body.text "success"⟩]) ∧
      store'.length = 1 ∧
      store'.map BlogPost.id = [1] := by
  have hauth : Authenticated testVerify (some "Bearer jwt") :=
    ⟨"jwt", [("userID", JsVal.undefined)], by decide, by decide⟩
  obtain ⟨store', h1, h2, _, h4⟩ :=
    routeDelete_sets_flag_only testVerify (some "Bearer jwt") "test-title" testStore hauth
  refine ⟨hauth, store', h1, h2.trans (by decide), ?_⟩
  have hpre := h4 slugify (Call.delete false (some "Bearer jwt") "test-title") testStore
  rw [serve, h1] at hpre
  have hlen : (store'.map BlogPost.id).length = ([1] : List Nat).length := by
    rw [List.length_map, h2]
    decide
  have h5 : testStore.map BlogPost.id = [1] := by decide
  rw [h5] at hpre
  exact (List.IsPrefix.eq_of_length hpre hlen.symm).symm

/-! ## Slug follows title -/

/-- One request keeps the equation `slug = slugFn title` on every row. -/
theorem serve_preserves_slug (verify : String → Option JsObject) (slugFn : String → String)
    (store : List BlogPost) (call : Call) (hinv : ∀ p ∈ store, p.slug = slugFn p.title) :
    ∀ p ∈ (serve verify slugFn store call).1, p.slug = slugFn p.title := by
  rcases serve_store_cases verify slugFn store call with h | ⟨row, h, hrow⟩ | ⟨f, h, hf⟩
  · rw [h]
    exact hinv
  · rw [h]
    intro p hp
    rcases List.mem_append.mp hp with hp | hp
    · exact hinv p hp
    · rw [List.mem_singleton.mp hp]
      exact hrow
  · rw [h]
    intro q hq
    obtain ⟨p, hp, rfl⟩ := List.mem_map.mp hq
    rcases (hf p).2 with ⟨hs, ht⟩ | hs
    · rw [hs, ht]
      exact hinv p hp
    · exact hs

/-- The equation `slug = slugFn title` holds along every sequence of requests. -/
theorem foldl_serve_preserves_slug (verify : String → Option JsObject)
    (slugFn : String → String) (calls : List Call) (store : List BlogPost)
    (hinv : ∀ p ∈ store, p.slug = slugFn p.title) :
    ∀ p ∈ calls.foldl (fun store call => (serve verify slugFn store call).1) store,
      p.slug = slugFn p.title := by
  induction calls generalizing store with
  | nil => exact hinv
  | cons call calls ih =>
    exact ih _ (serve_preserves_slug verify slugFn store call hinv)

/-- C10, as the claim states it, fails on a title change that the slug function does not
see: with the slug function of the spec, editing the test post from title `test title` to
`Test Title` changes the title and leaves the slug `test-title`, and get-by-slug with the
old slug still returns the post. -/
theorem update_title_case_keeps_slug :
    testStore.map (fun p => (p.title, p.slug)) = [("test title", "test-title")] ∧
    (routeUpdate testVerify slugify false (some "Bearer jwt") "test-title"
        { testPost with title := "Test Title" } testStore).1.map
      (fun p => (p.title, p.slug)) = [("Test Title", "test-title")] ∧
    (routeGetBySlug false none "test-title"
        (routeUpdate testVerify slugify false (some "Bearer jwt") "test-title"
          { testPost with title := "Test Title" } testStore).1).2.map
      (fun r => (r.status, r.body.title?)) = [(200, some "Test Title")] := by
  decide

/-- C10, amended. Every row written by create or update has `slug = slugFn title` for the
title of that request, so the equation holds on every store reached from the empty store by
requests to the post routes (create, update, soft delete, listing, get-by-slug; with or
without a valid token, with or without a storage error). An authenticated, successful edit
whose new title has a slug other than the path slug gives every row of the path slug the
new title and the new slug and leaves no row with the old slug, so get-by-slug with the old
slug returns an empty body. In the test suite, after PUT on `test-title` with title
`new title` the post is returned for `new-title` and not for `test-title`. -/
theorem slug_follows_title :
    (∀ (verify : String → Option JsObject) (slugFn : String → String) (calls : List Call),
      ∀ p ∈ run verify slugFn calls, p.slug = slugFn p.title) ∧
    (∀ (verify : String → Option JsObject) (slugFn : String → String)
        (authorization : Option String) (slug : String) (body : PostBody)
        (store : List BlogPost),
      Authenticated verify authorization → slugFn body.title ≠ slug →
      (∀ p ∈ store, p.slug = slug →
        ∃ q ∈ (routeUpdate verify slugFn false authorization slug body store).1,
          q.id = p.id ∧ q.title = body.title ∧ q.slug = slugFn body.title) ∧
      (∀ q ∈ (routeUpdate verify slugFn false authorization slug body store).1,
        q.slug ≠ slug) ∧
      (∀ other : Option String,
        (routeGetBySlug false other slug
          (routeUpdate verify slugFn false authorization slug body store).1).2 =
            [⟨200, Body.empty⟩])) ∧
    ((routeGetBySlug false none "new-title"
        (routeUpdate testVerify slugify false (some "Bearer jwt") "test-title" editedPost
          testStore).1).2.map
      (fun r => (r.status, r.body.title?)) = [(200, some "new title")] ∧
     (routeGetBySlug false none "test-title"
        (routeUpdate testVerify slugify false (some "Bearer jwt") "test-title" editedPost
          testStore).1).2 = [⟨200, Body.empty⟩]) := by
  refine ⟨?_, ?_, by decide, by decide⟩
  · intro verify slugFn calls
    exact foldl_serve_preserves_slug verify slugFn calls [] (by simp)
  · intro verify slugFn authorization slug body store hauth hne
    rw [routeUpdate_ok verify slugFn authorization slug body store hauth]
    have hnone : ∀ q ∈ store.map (fun p =>
        if p.slug = slug then
          ({ id := p.id, slug := slugFn body.title, content := body.content,
             title := body.title, date := body.date, headerImage := body.headerImage,
             thumbnailImage := body.thumbnailImage, tags := body.tags,
             deleted := body.deleted.getD 0, byline := body.byline } : BlogPost)
        else p), q.slug ≠ slug := by
      intro q hq
      obtain ⟨p, _, rfl⟩ := List.mem_map.mp hq
      by_cases hp : p.slug = slug
      · simpa [hp] using hne
      · simp [hp]
    refine ⟨?_, hnone, ?_⟩
    · intro p hp hs
      exact ⟨_, List.mem_map.mpr ⟨p, hp, rfl⟩, by simp [hs]⟩
    · intro other
      have hf : List.find? (fun p => p.slug == slug && p.deleted == 0)
          (store.map fun p =>
            if p.slug = slug then
              ({ id := p.id, slug := slugFn body.title, content := body.content,
                 title := body.title, date := body.date, headerImage := body.headerImage,
                 thumbnailImage := body.thumbnailImage, tags := body.tags,
                 deleted := body.deleted.getD 0, byline := body.byline } : BlogPost)
            else p) = none := by
        rw [List.find?_eq_none]
        intro q hq
        simp [hnone q hq]
      simp only [routeGetBySlug, getPostBySlug, Bool.false_eq_true, if_false, hf]

/-- A run of `slug_follows_title` on the edit of the test suite: the test post, edited to
the title `new title`, has the slug `new-title`, and no row has the slug `test-title`. -/
theorem slug_follows_title_witness :
    Authenticated testVerify (some "Bearer jwt") ∧ slugify editedPost.title ≠ "test-title" ∧
    (∀ q ∈ (routeUpdate testVerify slugify false (some "Bearer jwt") "test-title" editedPost
        testStore).1, q.slug ≠ "test-title") ∧
    ∀ p ∈ run testVerify slugify
        [Call.create 1700000000100 false (some "Bearer jwt") testPost,
         Call.update false (some "Bearer jwt") "test-title" editedPost],
      p.slug = slugify p.title :=
  have hauth : Authenticated testVerify (some "Bearer jwt") :=
    ⟨"jwt", [("userID", JsVal.undefined)], by decide, by decide⟩
  ⟨hauth, by decide,
    (slug_follows_title.2.1 testVerify slugify (some "Bearer jwt") "test-title" editedPost
      testStore hauth (by decide)).2.1,
    slug_follows_title.1 testVerify slugify _⟩

/-! ## Images -/

/-- A prefix that does not contain the separator cannot reach across it. -/
theorem isPrefixOf_append_sep (x : Char) (n cs m : List Char) (hx : x ∉ n)
    (h : n.isPrefixOf (cs ++ x :: m) = true) : n.isPrefixOf cs = true := by
  induction n generalizing cs with
  | nil => simp
  | cons a n ih =>
    have hax : a ≠ x := fun e => hx (by simp [e])
    have hxn : x ∉ n := fun e => hx (by simp [e])
    cases cs with
    | nil =>
      simp [List.isPrefixOf_cons₂, hax] at h
    | cons d ds =>
      simp only [List.cons_append, List.isPrefixOf_cons₂, Bool.and_eq_true] at h ⊢
      exact ⟨h.1, ih ds hxn h.2⟩

/-- A needle that starts with the separator and has it nowhere else does not straddle the
join of a text and a suffix that starts with the separator. -/
theorem includesChars_append_sep (x : Char) (n f m : List Char) (hx : x ∉ n)
    (hf : includesChars (x :: n) f = false) (hm : includesChars (x :: n) (x :: m) = false) :
    includesChars (x :: n) (f ++ x :: m) = false := by
  induction f with
  | nil => simpa using hm
  | cons c cs ih =>
    simp only [includesChars, Bool.or_eq_false_iff] at hf
    simp only [List.cons_append, includesChars, Bool.or_eq_false_iff]
    refine ⟨?_, ih hf.2⟩
    cases hp : (x :: n).isPrefixOf (c :: (cs ++ x :: m)) with
    | false => rfl
    | true =>
      have h1 := hf.1
      simp only [List.isPrefixOf_cons₂, Bool.and_eq_true] at hp
      simp only [List.isPrefixOf_cons₂] at h1
      rw [hp.1, isPrefixOf_append_sep x n cs m hx hp.2] at h1
      simp at h1

/-- A text that ends with the needle includes it. -/
theorem includesChars_append_self (needle f : List Char) :
    includesChars needle (f ++ needle) = true := by
  induction f with
  | nil =>
    cases needle with
    | nil => rfl
    | cons c cs => simp [includesChars]
  | cons c cs ih => simp [includesChars, ih]

theorem jsIncludes_thumbnail_variant (filename : String) :
    jsIncludes (filename ++ "-" ++ "thumbnail") "-thumbnail" = true := by
  have h := includesChars_append_self "-thumbnail".toList filename.toList
  simpa [jsIncludes, String.toList, List.append_assoc] using h

theorem jsIncludes_medium_variant (filename : String)
    (hf : jsIncludes filename "-thumbnail" = false) :
    jsIncludes (filename ++ "-" ++ "medium") "-thumbnail" = false := by
  have h := includesChars_append_sep '-' "thumbnail".toList filename.toList "medium".toList
    (by decide) (by simpa [jsIncludes, String.toList] using hf) (by decide)
  simpa [jsIncludes, String.toList, List.append_assoc] using h

/-- C11. The image listing (`GET /api/blog/images`), for every directory: the response is
200 with the names of the directory that do not include `-thumbnail`, in directory order.
After one authenticated upload into an empty directory that stores the original under a
generated name `f` (which does not include `-thumbnail`) and writes both resized copies,
the directory holds `f`, `f-thumbnail` and `f-medium`, and the listing is the two names `f`
and `f-medium`, not the single name `f`: the filter drops the thumbnail only. -/
theorem routeImages_keeps_medium :
    (∀ dir : List String,
      ∃ names, routeImages dir = (dir, [⟨200, Body.filenames names⟩]) ∧
        names.Sublist dir ∧
        ∀ name, name ∈ names ↔ name ∈ dir ∧ jsIncludes name "-thumbnail" = false) ∧
    (∀ (verify : String → Option JsObject) (authorization : Option String)
        (filename : String),
      Authenticated verify authorization → jsIncludes filename "-thumbnail" = false →
      routeUploadImage verify (fun _ => true) authorization (some filename) [] =
        ([filename, filename ++ "-" ++ "thumbnail", filename ++ "-" ++ "medium"],
          [⟨201, Body.text "File uploaded successfully"⟩]) ∧
      (routeImages
          (routeUploadImage verify (fun _ => true) authorization (some filename) []).1).2 =
        [⟨200, Body.filenames [filename, filename ++ "-" ++ "medium"]⟩]) ∧
    (routeImages
        (routeUploadImage testVerify (fun _ => true) (some "Bearer jwt")
          (some "3f2a9c0d5e6b7a8899aabbccddeeff00") []).1).2 =
      [⟨200, Body.filenames ["3f2a9c0d5e6b7a8899aabbccddeeff00",
        "3f2a9c0d5e6b7a8899aabbccddeeff00-medium"]⟩] := by
  refine ⟨?_, ?_, by decide⟩
  · intro dir
    refine ⟨_, rfl, List.filter_sublist dir, ?_⟩
    intro name
    simp [List.mem_filter]
  · intro verify authorization filename hauth hf
    obtain ⟨token, user, ht, hv⟩ := hauth
    have hup : routeUploadImage verify (fun _ => true) authorization (some filename) [] =
        ([filename, filename ++ "-" ++ "thumbnail", filename ++ "-" ++ "medium"],
          [⟨201, Body.text "File uploaded successfully"⟩]) := by
      rw [routeUploadImage, route_authenticateToken_ok verify _ authorization [] token user ht hv]
      simp [uploadImage, uploadSingle, sizes]
    refine ⟨hup, ?_⟩
    rw [hup]
    simp [routeImages, List.filter, hf, jsIncludes_thumbnail_variant,
      jsIncludes_medium_variant filename hf]

/-- A run of `routeImages_keeps_medium` on the upload of the test suite, under a name as
multer generates it. -/
theorem routeImages_keeps_medium_witness :
    Authenticated testVerify (some "Bearer jwt") ∧
    jsIncludes "3f2a9c0d5e6b7a8899aabbccddeeff00" "-thumbnail" = false ∧
    (routeImages
        (routeUploadImage testVerify (fun _ => true) (some "Bearer jwt")
          (some "3f2a9c0d5e6b7a8899aabbccddeeff00") []).1).2 =
      [⟨200, Body.filenames ["3f2a9c0d5e6b7a8899aabbccddeeff00",
        "3f2a9c0d5e6b7a8899aabbccddeeff00" ++ "-" ++ "medium"]⟩] :=
  have hauth : Authenticated testVerify (some "Bearer jwt") :=
    ⟨"jwt", [("userID", JsVal.undefined)], by decide, by decide⟩
  ⟨hauth, by decide,
    (routeImages_keeps_medium.2.1 testVerify (some "Bearer jwt")
      "3f2a9c0d5e6b7a8899aabbccddeeff00" hauth (by decide)).2⟩

/-! ## Newsletter -/

/-- C12. Newsletter signup (`POST /api/sign-up-for-newsletter`) when nothing is thrown inside
the `try` block, for every current time, email (any string, or none) and emails table: if
the insert succeeds the response is 201 `success` and the table has one more row, holding the
email as sent and the current time, whether or not the email is already in the table; if the
storage engine reports an error for the insert the response is 201 `success` all the same
and the table is as it was; in neither case is a 500 sent. -/
theorem signUpForNewsletter_never_reports_storage_error :
    (∀ (now : Int) (email : Option String) (emails : List EmailRow),
      ∃ row, signUpForNewsletter now false false email emails =
          (emails ++ [row], [⟨201, Body.text "success"⟩]) ∧
        row.email = email ∧ row.dateRegistered = now) ∧
    (∀ (now : Int) (email : Option String) (emails : List EmailRow),
      signUpForNewsletter now false true email emails =
        (emails, [⟨201, Body.text "success"⟩])) ∧
    (∀ (now : Int) (dbErr : Bool) (email : Option String) (emails : List EmailRow),
      (signUpForNewsletter now false dbErr email emails).2.map Response.status = [201]) ∧
    signUpForNewsletter 1700000000000 false true (some "reader@example.com") [] =
      ([], [⟨201, Body.text "success"⟩]) := by
  refine ⟨?_, ?_, ?_, by decide⟩
  · intro now email emails
    exact ⟨{ id := nextEmailRowid emails, email := email, dateRegistered := now },
      by simp [signUpForNewsletter], rfl, rfl⟩
  · intro now email emails
    simp [signUpForNewsletter]
  · intro now dbErr email emails
    cases dbErr <;> simp [signUpForNewsletter]

/-! ## Token extraction -/

/-- A text without the separator is its own single field. -/
theorem splitChars_of_not_mem (sep : Char) (l : List Char) (h : sep ∉ l) :
    splitChars sep l = [l] := by
  induction l with
  | nil => rfl
  | cons c cs ih =>
    have hc : c ≠ sep := fun e => h (by simp [e])
    have hcs : sep ∉ cs := fun e => h (by simp [e])
    simp [splitChars, ih hcs, hc]

/-- A first field without the separator is split off at the first separator. -/
theorem splitChars_append_sep (sep : Char) (w rest : List Char) (h : sep ∉ w) :
    splitChars sep (w ++ sep :: rest) = w :: splitChars sep rest := by
  induction w with
  | nil =>
    cases hs : splitChars sep rest with
    | nil => exact absurd hs (splitChars_ne_nil sep rest)
    | cons v vs => simp [splitChars, hs]
  | cons c cs ih =>
    have hc : c ≠ sep := fun e => h (by simp [e])
    have hcs : sep ∉ cs := fun e => h (by simp [e])
    simp [splitChars, ih hcs, hc]

/-- The token of a header `scheme token...` with a scheme word without a space: the first
field of what follows the first space. -/
theorem extractToken_scheme (scheme rest : String) (h : ' ' ∉ scheme.toList) :
    extractToken (some (scheme ++ " " ++ rest)) =
      ((splitChars ' ' rest.toList)[0]?).map String.mk := by
  have hl : (scheme ++ " " ++ rest).toList = scheme.toList ++ ' ' :: rest.toList := by
    simp [String.toList, List.append_assoc]
  have hne : scheme ++ " " ++ rest ≠ "" := by
    intro e
    have hnil : (scheme ++ " " ++ rest).toList = [] := by rw [e]; rfl
    rw [hl] at hnil
    simp at hnil
  simp only [extractToken, hne, if_false, jsSplit, hl, splitChars_append_sep ' ' _ _ h]
  simp

/-- The decisions of both middlewares are functions of the extracted token. -/
theorem middlewares_congr (verify : String → Option JsObject) (a b : Option String)
    (user0 : Option JsObject) (h : extractToken a = extractToken b) :
    (authenticateToken verify ⟨a, user0⟩).2 = (authenticateToken verify ⟨b, user0⟩).2 ∧
    (authenticateToken verify ⟨a, user0⟩).1.user =
      (authenticateToken verify ⟨b, user0⟩).1.user ∧
    (authenticateTokenIfPresentButNextAnyway verify ⟨a, user0⟩).2 =
      (authenticateTokenIfPresentButNextAnyway verify ⟨b, user0⟩).2 ∧
    (authenticateTokenIfPresentButNextAnyway verify ⟨a, user0⟩).1.user =
      (authenticateTokenIfPresentButNextAnyway verify ⟨b, user0⟩).1.user := by
  unfold authenticateToken authenticateTokenIfPresentButNextAnyway
  simp only [h]
  cases extractToken b with
  | none => simp
  | some t => cases hv : verify t <;> simp [hv]

/-- C13, as the claim states it, fails at the empty header value: `''` and `'jwt'` both
have no second space-separated field, yet `authHeader && ...` hands the empty header on as
the token `''`, which fails verification (403), while the header `jwt` has no token (401). -/
theorem empty_header_is_verified :
    (jsSplit "" ' ')[1]? = none ∧ (jsSplit "jwt" ' ')[1]? = none ∧
    statusesSent (authenticateToken testVerify ⟨some "", none⟩).2 = [403] ∧
    statusesSent (authenticateToken testVerify ⟨some "jwt", none⟩).2 = [401] := by
  decide

/-- C13, amended. For every verifier and any two non-empty header values whose second
field after splitting on a single space is the same (or is absent in both), required mode
performs the same effects (401, 403 or `next`) and leaves the same `req.user`, and
optional mode leaves the same `req.user`. The scheme word is never checked: for every `t`,
`Basic t` and `Bearer t` are decided alike, and when `t` has no space and verifies, `Basic t`
is let through with the identity of `t`. A header that is a non-empty token alone, with no
space, yields 401 in required mode even if the token verifies. -/
theorem second_field_decides :
    (∀ (verify : String → Option JsObject) (h1 h2 : String) (user0 : Option JsObject),
      h1 ≠ "" → h2 ≠ "" → (jsSplit h1 ' ')[1]? = (jsSplit h2 ' ')[1]? →
      (authenticateToken verify ⟨some h1, user0⟩).2 =
        (authenticateToken verify ⟨some h2, user0⟩).2 ∧
      (authenticateToken verify ⟨some h1, user0⟩).1.user =
        (authenticateToken verify ⟨some h2, user0⟩).1.user ∧
      (authenticateTokenIfPresentButNextAnyway verify ⟨some h1, user0⟩).2 =
        (authenticateTokenIfPresentButNextAnyway verify ⟨some h2, user0⟩).2 ∧
      (authenticateTokenIfPresentButNextAnyway verify ⟨some h1, user0⟩).1.user =
        (authenticateTokenIfPresentButNextAnyway verify ⟨some h2, user0⟩).1.user) ∧
    (∀ (verify : String → Option JsObject) (t : String) (user0 : Option JsObject),
      (authenticateToken verify ⟨some ("Basic " ++ t), user0⟩).2 =
        (authenticateToken verify ⟨some ("Bearer " ++ t), user0⟩).2 ∧
      (authenticateToken verify ⟨some ("Basic " ++ t), user0⟩).1.user =
        (authenticateToken verify ⟨some ("Bearer " ++ t), user0⟩).1.user ∧
      (authenticateTokenIfPresentButNextAnyway verify ⟨some ("Basic " ++ t), user0⟩).1.user =
        (authenticateTokenIfPresentButNextAnyway verify
          ⟨some ("Bearer " ++ t), user0⟩).1.user) ∧
    (∀ (verify : String → Option JsObject) (t : String) (user0 : Option JsObject)
        (user : JsObject), ' ' ∉ t.toList → verify t = some user →
      (authenticateToken verify ⟨some ("Basic " ++ t), user0⟩).2 = [Effect.next] ∧
      (authenticateToken verify ⟨some ("Basic " ++ t), user0⟩).1.user = some user) ∧
    (∀ (verify : String → Option JsObject) (t : String) (user0 : Option JsObject),
      t ≠ "" → ' ' ∉ t.toList →
      statusesSent (authenticateToken verify ⟨some t, user0⟩).2 = [401] ∧
      nextCalls (authenticateToken verify ⟨some t, user0⟩).2 = 0) := by
  have hbasic : ∀ t : String, "Basic " ++ t = "Basic" ++ " " ++ t := by
    intro t
    rw [String.append_assoc]
    rfl
  have hbearer : ∀ t : String, "Bearer " ++ t = "Bearer" ++ " " ++ t := by
    intro t
    rw [String.append_assoc]
    rfl
  refine ⟨?_, ?_, ?_, ?_⟩
  · intro verify h1 h2 user0 hne1 hne2 heq
    apply middlewares_congr
    simp [extractToken, hne1, hne2, heq]
  · intro verify t user0
    have h := middlewares_congr verify (some ("Basic " ++ t)) (some ("Bearer " ++ t)) user0
      (by rw [hbasic, hbearer, extractToken_scheme "Basic" t (by decide),
            extractToken_scheme "Bearer" t (by decide)])
    exact ⟨h.1, h.2.1, h.2.2.2⟩
  · intro verify t user0 user hsp hv
    have ht : extractToken (some ("Basic " ++ t)) = some t := by
      rw [hbasic, extractToken_scheme "Basic" t (by decide), splitChars_of_not_mem ' ' _ hsp]
      rfl
    simp [authenticateToken, ht, hv]
  · intro verify t user0 hne hsp
    have ht : extractToken (some t) = none :=
      (extractToken_eq_none_iff (some t)).mpr (Or.inr ⟨t, rfl, hne, hsp⟩)
    simp [authenticateToken, ht, statusesSent, nextCalls]

/-- A run of `second_field_decides` on the token of the test suite: `Basic jwt` is let
through like `Bearer jwt`, and the header `jwt` alone is answered 401. -/
theorem second_field_decides_witness :
    (authenticateToken testVerify ⟨some "Basic jwt", none⟩).2 =
      (authenticateToken testVerify ⟨some "Bearer jwt", none⟩).2 ∧
    (authenticateToken testVerify ⟨some "Basic jwt", none⟩).2 = [Effect.next] ∧
    statusesSent (authenticateToken testVerify ⟨some "jwt", none⟩).2 = [401] :=
  ⟨(second_field_decides.1 testVerify "Basic jwt" "Bearer jwt" none (by decide) (by decide)
      (by decide)).1,
    (second_field_decides.2.2.1 testVerify "jwt" none [("userID", JsVal.undefined)]
      (by decide) (by decide)).1,
    (second_field_decides.2.2.2 testVerify "jwt" none (by decide) (by decide)).1⟩

end Blog
